import Mathlib

/-!
Shallow embedding of the map performance layer of the PROJECT-SHAKTI
dashboard (src/Dashboard/static/js/map-performance.js and
src/Dashboard/static/js/map-renderer.js), together with theorems that
settle the specification claims about it.

Conventions:
* JS `Date.now()` timestamps are `Nat` milliseconds.
* A JS `Map` whose entries are iterated by the code (the three caches of
  `CacheManager`) is an association list; a JS `Map` used only through
  `get`/`set`/`delete` (the loader's `loadingPromises`) is a function
  `String → Option Nat`.
* Code that can throw returns `Except`/`Option`; a loop whose termination
  depends on the step size is given explicit fuel, so that divergence of
  the source loop shows up as `none`.
-/

namespace MapPerf

set_option maxRecDepth 16384

/-- `CACHE_DURATION = 5 * 60 * 1000` from the `CacheManager` constructor. -/
def CACHE_DURATION : Nat := 5 * 60 * 1000

/-- One of `CacheManager`'s `Map`s: keys paired with `(value, timestamp)`. -/
abbrev Store (V : Type) := List (String × V × Nat)

/-- Remove every entry for key `k` (a JS `Map` holds one entry per key). -/
def eraseKey : List (String × β) → String → List (String × β)
  | [], _ => []
  | e :: t, k => if e.1 = k then eraseKey t k else e :: eraseKey t k

/-- `Map.set k (v with timestamp ts)`: the new entry replaces any previous
entry for `k`. -/
def storeSet (s : Store V) (k : String) (v : V) (ts : Nat) : Store V :=
  (k, v, ts) :: eraseKey s k

/-- `Map.delete k`. -/
def storeDelete (s : Store V) (k : String) : Store V :=
  eraseKey s k

/-- The state of a `CacheManager`: the three caches
(`dataCache`, `mapCache`, `visualizationCache`). -/
structure CacheManager (V : Type) where
  dataCache : Store V
  mapCache : Store V
  visualizationCache : Store V
deriving DecidableEq

/-- The local `const cutoff = now - this.CACHE_DURATION` of
`CacheManager.cleanup`.  (Kept irreducible so that unification does not unfold
the numeral subtraction on a symbolic `now`.) -/
@[irreducible] def cutoff (now : Nat) : Nat := now - CACHE_DURATION

theorem cutoff_le (now : Nat) : cutoff now ≤ now := by
  unfold cutoff
  exact Nat.sub_le now CACHE_DURATION

theorem cutoff_eq (now : Nat) : cutoff now = now - CACHE_DURATION := by
  unfold cutoff
  rfl

/-- `CacheManager.cleanup`: delete from all three caches every entry whose
`timestamp < cutoff`. -/
def cleanup (c : CacheManager V) (now : Nat) : CacheManager V :=
  { dataCache := c.dataCache.filter (fun e => ! decide (e.2.2 < cutoff now))
    mapCache := c.mapCache.filter (fun e => ! decide (e.2.2 < cutoff now))
    visualizationCache :=
      c.visualizationCache.filter (fun e => ! decide (e.2.2 < cutoff now)) }

/-- `CacheManager.setData`: stamp the data with `Date.now()`, store it in
`dataCache`, then run `cleanup()`. -/
def setData (c : CacheManager V) (k : String) (v : V) (now : Nat) : CacheManager V :=
  cleanup { c with dataCache := storeSet c.dataCache k v now } now

/-- `CacheManager.getData`: return the entry if present and
`now - timestamp < CACHE_DURATION`; otherwise delete a present (expired)
entry and return `null`.  The returned pair is (result, new state). -/
def getData (c : CacheManager V) (k : String) (now : Nat) :
    Option V × CacheManager V :=
  match List.lookup k c.dataCache with
  | some (v, ts) =>
      if now - ts < CACHE_DURATION then (some v, c)
      else (none, { c with dataCache := storeDelete c.dataCache k })
  | none => (none, c)

/-- `CacheManager.setMapInstance`: stores into `mapCache`; does not call
`cleanup`. -/
def setMapInstance (c : CacheManager V) (k : String) (v : V) (now : Nat) :
    CacheManager V :=
  { c with mapCache := storeSet c.mapCache k v now }

/-- `CacheManager.setVisualization`: stores into `visualizationCache`; does
not call `cleanup`. -/
def setVisualization (c : CacheManager V) (k : String) (v : V) (now : Nat) :
    CacheManager V :=
  { c with visualizationCache := storeSet c.visualizationCache k v now }

/- ### Association-list lemmas -/

theorem lookup_storeSet_self (s : Store V) (k : String) (v : V) (ts : Nat) :
    List.lookup k (storeSet s k v ts) = some (v, ts) := by
  simp [storeSet, List.lookup]

theorem lookup_eraseKey_self (s : List (String × β)) (k : String) :
    List.lookup k (eraseKey s k) = none := by
  induction s with
  | nil => rfl
  | cons e t ih =>
      rw [eraseKey]
      by_cases h : e.1 = k
      · rw [if_pos h]
        exact ih
      · rw [if_neg h]
        obtain ⟨a, b⟩ := e
        rw [List.lookup_cons]
        have hk : (k == a) = false := beq_eq_false_iff_ne.mpr (Ne.symm h)
        rw [hk]
        exact ih

theorem lookup_eraseKey_ne (s : List (String × β)) (k k' : String)
    (h : k' ≠ k) :
    List.lookup k' (eraseKey s k) = List.lookup k' s := by
  induction s with
  | nil => rfl
  | cons e t ih =>
      rw [eraseKey]
      by_cases he : e.1 = k
      · rw [if_pos he]
        obtain ⟨a, b⟩ := e
        rw [List.lookup_cons]
        have hk : (k' == a) = false :=
          beq_eq_false_iff_ne.mpr (fun hka => h (hka.trans he))
        rw [hk]
        exact ih
      · rw [if_neg he]
        obtain ⟨a, b⟩ := e
        rw [List.lookup_cons, List.lookup_cons]
        cases hk : (k' == a) with
        | true => rfl
        | false => exact ih

theorem lookup_eraseKey_some (s : List (String × β)) (k k' : String) (e : β)
    (h : List.lookup k' (eraseKey s k) = some e) : List.lookup k' s = some e := by
  by_cases hk : k' = k
  · rw [hk, lookup_eraseKey_self] at h
    exact absurd h (by simp)
  · rw [lookup_eraseKey_ne s k k' hk] at h
    exact h

theorem lookup_setData_self (c : CacheManager V) (k : String) (v : V) (now : Nat) :
    List.lookup k (setData c k v now).dataCache = some (v, now) := by
  have hlt : ¬ (now < cutoff now) := Nat.not_lt.mpr (cutoff_le now)
  simp only [setData, cleanup, storeSet, List.filter_cons]
  simp [hlt]

theorem getData_none (c : CacheManager V) (k : String) (now : Nat)
    (h : List.lookup k c.dataCache = none) : getData c k now = (none, c) := by
  unfold getData
  rw [h]

theorem getData_fresh (c : CacheManager V) (k : String) (now : Nat) (v : V)
    (ts : Nat) (h : List.lookup k c.dataCache = some (v, ts))
    (hf : now - ts < CACHE_DURATION) : getData c k now = (some v, c) := by
  unfold getData
  rw [h]
  exact if_pos hf

theorem getData_stale (c : CacheManager V) (k : String) (now : Nat) (v : V)
    (ts : Nat) (h : List.lookup k c.dataCache = some (v, ts))
    (hf : ¬ (now - ts < CACHE_DURATION)) :
    getData c k now = (none, { c with dataCache := storeDelete c.dataCache k }) := by
  unfold getData
  rw [h]
  exact if_neg hf

/-- C1: `setData(k, v)` at time `tset` followed by `getData(k)` at time `tget`
returns `v` while `tget - tset < CACHE_DURATION`; once the TTL has elapsed
(`CACHE_DURATION ≤ tget - tset`) it returns `null` and deletes the entry, so a
further `getData(k)` also returns `null`; and `getData` never rewrites any
entry: every entry of the state it returns is carried over unchanged (with its
original insertion timestamp) from the state it was given, so expiration is
measured purely from the time of the last `setData`. -/
theorem cache_ttl_expiration (c : CacheManager V) (k : String) (v : V)
    (tset tget : Nat) :
    (tget - tset < CACHE_DURATION →
      (getData (setData c k v tset) k tget).1 = some v) ∧
    (CACHE_DURATION ≤ tget - tset →
      (getData (setData c k v tset) k tget).1 = none ∧
      List.lookup k ((getData (setData c k v tset) k tget).2).dataCache = none ∧
      (getData ((getData (setData c k v tset) k tget).2) k tget).1 = none) ∧
    (∀ (c' : CacheManager V) (k' : String) (e : V × Nat),
      List.lookup k' ((getData c' k tget).2).dataCache = some e →
      List.lookup k' c'.dataCache = some e) := by
  have hl := lookup_setData_self c k v tset
  refine ⟨?_, ?_, ?_⟩
  · intro hfresh
    rw [getData_fresh _ _ _ _ _ hl hfresh]
  · intro hstale
    have hnot : ¬ (tget - tset < CACHE_DURATION) := Nat.not_lt.mpr hstale
    rw [getData_stale _ _ _ _ _ hl hnot]
    have h2 : List.lookup k (storeDelete (setData c k v tset).dataCache k) =
        none := lookup_eraseKey_self _ _
    refine ⟨rfl, h2, ?_⟩
    rw [getData_none _ _ tget h2]
  · intro c' k' e h
    cases hl' : List.lookup k c'.dataCache with
    | none =>
        rw [getData_none _ _ tget hl'] at h
        exact h
    | some p =>
        obtain ⟨v', ts'⟩ := p
        by_cases hf : tget - ts' < CACHE_DURATION
        · rw [getData_fresh _ _ _ _ _ hl' hf] at h
          exact h
        · rw [getData_stale _ _ _ _ _ hl' hf] at h
          exact lookup_eraseKey_some _ _ _ _ h

/-- Witness for C1 at a concrete store, key, value and times. -/
theorem cache_ttl_expiration_witness :
    (getData (setData (CacheManager.mk [] [] [] : CacheManager Nat) "a" 7 0)
        "a" 10).1 = some 7 ∧
    (getData (setData (CacheManager.mk [] [] [] : CacheManager Nat) "a" 7 0)
        "a" 300000).1 = none :=
  ⟨(cache_ttl_expiration _ "a" 7 0 10).1 (by decide),
   ((cache_ttl_expiration _ "a" 7 0 300000).2.1 (by decide)).1⟩

/- ### BatchProcessor (map-performance.js lines 221-278) -/

/-- `BatchProcessor._createChunks(array, size)`: the loop
`for (let i = 0; i < array.length; i += size) chunks.push(array.slice(i, i + size))`.
Each iteration contributes `take size` and continues on `drop size`; the fuel
bounds the number of iterations, so a step size of `0` (an infinite loop in the
source) yields `none` for every finite fuel. -/
def createChunksF : Nat → List α → Nat → Option (List (List α))
  | _, [], _ => some []
  | 0, _ :: _, _ => none
  | fuel + 1, x :: xs, size =>
      match createChunksF fuel ((x :: xs).drop size) size with
      | some cs => some ((x :: xs).take size :: cs)
      | none => none

/-- `options.chunkSize || this.chunkSize` with `this.chunkSize = 1000`:
an absent or zero (falsy) chunk size falls back to `1000`. -/
def effectiveChunkSize (chunkSizeOpt : Option Nat) : Nat :=
  match chunkSizeOpt with
  | some n => if n = 0 then 1000 else n
  | none => 1000

/-- Number of yields of the `processBatch` loop over chunk indices
`0, ..., numChunks - 1`: a yield happens iff `i > 0 && i % 10 === 0`. -/
def yieldCount (numChunks : Nat) : Nat :=
  (List.range numChunks).countP (fun i => decide (0 < i) && decide (i % 10 = 0))

/-- `BatchProcessor.processBatch(items, processor, options)`: split into chunks
of the effective chunk size, apply `processor` to each chunk in order,
concatenate the chunk results in order (`results.push(...chunkResults)`), and
count the `_yieldToMainThread()` deferrals.  The `onProgress` callback does not
affect the returned results and is not modelled.  `none` models
non-termination of the chunking loop (impossible here because the effective
chunk size is never `0`). -/
def processBatchWithYields (items : List α) (processor : List α → List β)
    (chunkSizeOpt : Option Nat) : Option (List β × Nat) :=
  (createChunksF items.length items (effectiveChunkSize chunkSizeOpt)).map
    (fun cs => ((cs.map processor).flatten, yieldCount cs.length))

/-- The value returned by `processBatch`. -/
def processBatch (items : List α) (processor : List α → List β)
    (chunkSizeOpt : Option Nat) : Option (List β) :=
  (processBatchWithYields items processor chunkSizeOpt).map Prod.fst

/-- The number of yields performed by `processBatch`. -/
def processBatchYields (items : List α) (processor : List α → List β)
    (chunkSizeOpt : Option Nat) : Option Nat :=
  (processBatchWithYields items processor chunkSizeOpt).map Prod.snd

/-- `BatchProcessor.processLargeDataset(data, processor)`: chunked processing
(chunk size 1000) only when `data.length > 10000`, otherwise a single direct
`processor(data)` call. -/
def processLargeDataset (items : List α) (processor : List α → List β) :
    Option (List β) :=
  if 10000 < items.length then processBatch items processor (some 1000)
  else some (processor items)

/-- Yields performed by `processLargeDataset` (zero on the direct path). -/
def processLargeDatasetYields (items : List α)
    (processor : List α → List β) : Option Nat :=
  if 10000 < items.length then processBatchYields items processor (some 1000)
  else some 0

/-- The raw chunking loop with step `0` never terminates on nonempty input
(every fuel is exhausted), which is why `processBatch` replaces a falsy chunk
size with the default before chunking. -/
theorem createChunksF_zero_step (x : α) (xs : List α) :
    ∀ fuel, createChunksF fuel (x :: xs) 0 = none := by
  intro fuel
  induction fuel with
  | zero => rfl
  | succ fuel ih =>
      rw [createChunksF]
      rw [List.drop_zero, ih]

theorem createChunksF_spec (size : Nat) (hs : 1 ≤ size) :
    ∀ (fuel : Nat) (xs : List α), xs.length ≤ fuel →
    ∃ cs, createChunksF fuel xs size = some cs ∧ cs.flatten = xs ∧
      cs.length = (xs.length + size - 1) / size := by
  intro fuel
  induction fuel with
  | zero =>
      intro xs hx
      match xs with
      | [] =>
          refine ⟨[], rfl, rfl, ?_⟩
          have hz : (size - 1) / size = 0 := Nat.div_eq_of_lt (by omega)
          simp [hz]
      | x :: xs' => exact absurd hx (by simp)
  | succ fuel ih =>
      intro xs hx
      match xs with
      | [] =>
          refine ⟨[], rfl, rfl, ?_⟩
          have hz : (size - 1) / size = 0 := Nat.div_eq_of_lt (by omega)
          simp [hz]
      | x :: xs' =>
          have hd : ((x :: xs').drop size).length ≤ fuel := by
            rw [List.length_drop]
            have : (x :: xs').length ≤ fuel + 1 := hx
            simp only [List.length_cons] at this ⊢
            omega
          obtain ⟨cs, hcs, hflat, hlen⟩ := ih ((x :: xs').drop size) hd
          refine ⟨(x :: xs').take size :: cs, ?_, ?_, ?_⟩
          · rw [createChunksF, hcs]
          · rw [List.flatten_cons, hflat, List.take_append_drop]
          · rw [List.length_cons, hlen, List.length_drop]
            have hn : 1 ≤ (x :: xs').length := by simp
            have harith : ∀ n : Nat, 1 ≤ n →
                (n - size + size - 1) / size + 1 = (n + size - 1) / size := by
              intro n hn1
              have hr : n + size - 1 = (n - 1) + size := by omega
              have hrhs : (n + size - 1) / size = (n - 1) / size + 1 := by
                rw [hr, Nat.add_div_right _ (by omega)]
              rcases le_or_lt n size with hle | hlt
              · have h0 : n - size = 0 := by omega
                have hl1 : n - size + size - 1 = size - 1 := by omega
                rw [hl1, hrhs, Nat.div_eq_of_lt (by omega),
                  Nat.div_eq_of_lt (by omega)]
              · have hl1 : n - size + size - 1 = (n - size - 1) + size := by omega
                have hl2 : n - 1 = (n - size - 1) + size := by omega
                rw [hl1, Nat.add_div_right _ (by omega), hrhs, hl2,
                  Nat.add_div_right _ (by omega)]
            exact harith (x :: xs').length hn

/-- C2: for every input sequence, every chunk size `≥ 1` and every
per-item-preserving transform (a per-chunk processor that maps `f` over its
chunk), `processBatch` returns exactly `map f` of the input in the original
order — output length equals input length and chunk boundaries are
invisible in the result. -/
theorem processBatch_order_preserved (items : List α) (f : α → β)
    (size : Nat) (hs : 1 ≤ size) :
    processBatch items (List.map f) (some size) = some (items.map f) := by
  have heff : effectiveChunkSize (some size) = size := by
    show (if size = 0 then 1000 else size) = size
    rw [if_neg (by omega)]
  obtain ⟨cs, hcs, hflat, -⟩ :=
    createChunksF_spec size hs items.length items le_rfl
  unfold processBatch processBatchWithYields
  rw [heff, hcs]
  simp only [Option.map_some']
  rw [← List.map_flatten, hflat]

/-- Witness for C2 at a concrete list, transform and chunk size. -/
theorem processBatch_order_preserved_witness :
    (1 ≤ 2) ∧
    processBatch [1, 2, 3] (List.map (fun n : Nat => n * 2)) (some 2) =
      some [2, 4, 6] := by
  refine ⟨by decide, ?_⟩
  rw [processBatch_order_preserved [1, 2, 3] (fun n : Nat => n * 2) 2
    (by decide)]
  rfl

/-- C10: `processBatch` with `options.chunkSize = 0` (a falsy value) behaves
exactly as with the default chunk size `1000`, and always terminates with a
result — the chunk-splitting loop never runs with a zero step. -/
theorem processBatch_zero_chunkSize (items : List α)
    (processor : List α → List β) :
    processBatch items processor (some 0) = processBatch items processor none ∧
    ∃ r, processBatch items processor (some 0) = some r := by
  refine ⟨rfl, ?_⟩
  obtain ⟨cs, hcs, -, -⟩ :=
    createChunksF_spec 1000 (by omega) items.length items le_rfl
  refine ⟨(cs.map processor).flatten, ?_⟩
  unfold processBatch processBatchWithYields
  have heff : effectiveChunkSize (some 0) = 1000 := rfl
  rw [heff, hcs]
  rfl

/-- C4 counterexample: exactly 10,000 items in chunks of 1,000 give 10
chunks, indices `0..9`, and the yield guard `i > 0 && i % 10 === 0` never
fires, so no yield-to-scheduler happens; moreover `processLargeDataset`
(threshold `length > 10000`) does not even chunk a 10,000-item input but
processes it in one direct call. -/
theorem no_yield_at_10000 :
    processBatchYields (List.replicate 10000 (0 : Nat)) (fun c => c)
      (some 1000) = some 0 ∧
    processLargeDataset (List.replicate 10000 (0 : Nat)) (fun c => c) =
      some (List.replicate 10000 (0 : Nat)) ∧
    processLargeDatasetYields (List.replicate 10000 (0 : Nat)) (fun c => c) =
      some 0 := by
  have hlen : (List.replicate 10000 (0 : Nat)).length = 10000 :=
    List.length_replicate 10000 0
  refine ⟨?_, ?_, ?_⟩
  · obtain ⟨cs, hcs, -, hclen⟩ := createChunksF_spec 1000 (by omega)
      (List.replicate 10000 (0 : Nat)).length (List.replicate 10000 (0 : Nat))
      le_rfl
    have h10 : cs.length = 10 := by
      rw [hclen, hlen]
    unfold processBatchYields processBatchWithYields
    rw [show effectiveChunkSize (some 1000) = 1000 from rfl, hcs]
    simp only [Option.map_some']
    rw [h10]
    rfl
  · unfold processLargeDataset
    rw [if_neg (by rw [hlen]; omega)]
  · unfold processLargeDatasetYields
    rw [if_neg (by rw [hlen]; omega)]

/-- C4 amended: for inputs of strictly more than 10,000 items, chunked
processing with chunk size 1,000 produces at least 11 chunks, so the loop
yields to the host scheduler at least once (at chunk index 10), both via
`processBatch` and via `processLargeDataset`. -/
theorem yield_above_10000 (items : List α) (processor : List α → List β)
    (h : 10000 < items.length) :
    ∃ y, processBatchYields items processor (some 1000) = some y ∧ 1 ≤ y ∧
      processLargeDatasetYields items processor = some y := by
  obtain ⟨cs, hcs, -, hclen⟩ :=
    createChunksF_spec 1000 (by omega) items.length items le_rfl
  have h11 : 11 ≤ cs.length := by
    rw [hclen]
    omega
  have hbatch : processBatchYields items processor (some 1000) =
      some (yieldCount cs.length) := by
    unfold processBatchYields processBatchWithYields
    rw [show effectiveChunkSize (some 1000) = 1000 from rfl, hcs]
    rfl
  refine ⟨yieldCount cs.length, hbatch, ?_, ?_⟩
  · unfold yieldCount
    refine List.countP_pos_iff.mpr ⟨10, List.mem_range.mpr (by omega), ?_⟩
    decide
  · unfold processLargeDatasetYields
    rw [if_pos h]
    exact hbatch

/-- Witness for C4's amended claim at 10,001 items. -/
theorem yield_above_10000_witness :
    10000 < (List.replicate 10001 (0 : Nat)).length ∧
    ∃ y, processBatchYields (List.replicate 10001 (0 : Nat)) (fun c => c)
        (some 1000) = some y ∧ 1 ≤ y ∧
      processLargeDatasetYields (List.replicate 10001 (0 : Nat))
        (fun c => c) = some y :=
  ⟨by rw [List.length_replicate]; omega, yield_above_10000 _ _
    (by rw [List.length_replicate]; omega)⟩

/- ### C8: cleanup after set -/

/-- C8 counterexample: `setVisualization` (like `setMapInstance`) does not run
`cleanup()`, so immediately after it completes the `dataCache` still holds an
entry whose age `300001` exceeds `CACHE_DURATION = 300000`. -/
theorem stale_entry_survives_setVisualization :
    List.lookup "old"
      ((setVisualization (CacheManager.mk [("old", 7, 0)] [] [] :
        CacheManager Nat) "viz" 5 300001).dataCache) = some (7, 0) ∧
    CACHE_DURATION < 300001 - 0 := by
  constructor
  · rfl
  · decide

/-- C8 amended: of the three setters only `setData` triggers `cleanup()`;
after `setData` completes at time `now`, every entry remaining in any of the
three caches has age at most `CACHE_DURATION` (entries strictly older were
deleted).  `setMapInstance` and `setVisualization` run no cleanup pass. -/
theorem cleanup_after_setData (c : CacheManager V) (k : String) (v : V)
    (now : Nat) :
    (∀ e ∈ (setData c k v now).dataCache, now - e.2.2 ≤ CACHE_DURATION) ∧
    (∀ e ∈ (setData c k v now).mapCache, now - e.2.2 ≤ CACHE_DURATION) ∧
    (∀ e ∈ (setData c k v now).visualizationCache,
      now - e.2.2 ≤ CACHE_DURATION) := by
  have key : ∀ (l : Store V),
      ∀ e ∈ l.filter (fun e => ! decide (e.2.2 < cutoff now)),
      now - e.2.2 ≤ CACHE_DURATION := by
    intro l e he
    have hkeep := (List.mem_filter.mp he).2
    have h2 : ¬ (e.2.2 < cutoff now) := by simpa using hkeep
    have h3 := cutoff_eq now
    omega
  exact ⟨key _, key _, key _⟩

/-- Witness for C8's amended claim at a concrete cache state. -/
theorem cleanup_after_setData_witness :
    ("k", 1, 300001) ∈ (setData (CacheManager.mk [("old", 7, 0)] [] [] :
      CacheManager Nat) "k" 1 300001).dataCache ∧
    300001 - 300001 ≤ CACHE_DURATION := by
  have hdc : (setData (CacheManager.mk [("old", 7, 0)] [] [] :
      CacheManager Nat) "k" 1 300001).dataCache = [("k", 1, 300001)] := by
    simp only [setData, cleanup, storeSet, cutoff_eq]
    decide
  have hmem : ("k", 1, 300001) ∈ (setData (CacheManager.mk [("old", 7, 0)]
      [] [] : CacheManager Nat) "k" 1 300001).dataCache := by
    rw [hdc]
    decide
  exact ⟨hmem, (cleanup_after_setData (CacheManager.mk [("old", 7, 0)] [] [])
    "k" 1 300001).1 ("k", 1, 300001) hmem⟩

/- ### LazyLoader (map-performance.js lines 167-218) -/

/-- The state of a `LazyLoader`: the `loadedModules` set and the
`loadingPromises` map from module name to the identity of the in-flight
promise. -/
structure LoaderState where
  loadedModules : List String
  loadingPromises : String → Option Nat

/-- What one `loadModule(name)` call observes synchronously. -/
inductive LoadResult where
  | resolvedImmediate : LoadResult
  | joined (pid : Nat) : LoadResult
  | startedFetch (pid : Nat) : LoadResult
deriving DecidableEq

/-- The synchronous prefix of `LazyLoader.loadModule(name)` (everything up to
the first `await`, which in a single-threaded event loop runs atomically):
if the name is loaded, resolve immediately; if a promise for the name is in
flight, return that same promise; otherwise start `_loadModuleFile` (the one
underlying fetch, identified by `freshId`) and record it in
`loadingPromises`. -/
def loadModuleStep (s : LoaderState) (name : String) (freshId : Nat) :
    LoaderState × LoadResult :=
  if name ∈ s.loadedModules then (s, LoadResult.resolvedImmediate)
  else
    match s.loadingPromises name with
    | some pid => (s, LoadResult.joined pid)
    | none =>
        ({ s with loadingPromises :=
            fun n => if n = name then some freshId else s.loadingPromises n },
         LoadResult.startedFetch freshId)

/-- The continuation of `loadModule` after `await loadPromise` succeeds:
add the name to `loadedModules` and delete the in-flight marker. -/
def completeSuccess (s : LoaderState) (name : String) : LoaderState :=
  { loadedModules := name :: s.loadedModules
    loadingPromises := fun n => if n = name then none else s.loadingPromises n }

/-- The `catch` continuation of `loadModule` after `await loadPromise` fails:
delete the in-flight marker only (the failure is rethrown, never cached). -/
def completeFailure (s : LoaderState) (name : String) : LoaderState :=
  { s with loadingPromises :=
      fun n => if n = name then none else s.loadingPromises n }

/-- `n` consecutive `loadModule(name)` calls with no intervening completion
(concurrent callers interleaving before any fetch finishes), collecting each
caller's observation. -/
def runLoads : LoaderState → String → Nat → Nat → LoaderState × List LoadResult
  | s, _, _, 0 => (s, [])
  | s, name, fid, n + 1 =>
      let p := loadModuleStep s name fid
      let rest := runLoads p.1 name (fid + 1) n
      (rest.1, p.2 :: rest.2)

/-- How many of the collected observations performed an underlying fetch. -/
def fetchCount (rs : List LoadResult) : Nat :=
  rs.countP (fun r => match r with
    | LoadResult.startedFetch _ => true
    | _ => false)

theorem runLoads_joined (name : String) (pid : Nat) :
    ∀ (n fid : Nat) (s : LoaderState), name ∉ s.loadedModules →
    s.loadingPromises name = some pid →
    runLoads s name fid n = (s, List.replicate n (LoadResult.joined pid)) := by
  intro n
  induction n with
  | zero => intro fid s _ _; rfl
  | succ n ih =>
      intro fid s hnl hp
      have hstep : loadModuleStep s name fid = (s, LoadResult.joined pid) := by
        unfold loadModuleStep
        rw [if_neg hnl, hp]
      rw [runLoads]
      rw [hstep, ih (fid + 1) s hnl hp]
      rfl

theorem fetchCount_replicate_joined (n pid : Nat) :
    fetchCount (List.replicate n (LoadResult.joined pid)) = 0 := by
  induction n with
  | zero => rfl
  | succ n ih =>
      rw [List.replicate_succ]
      unfold fetchCount at ih ⊢
      rw [List.countP_cons]
      simp [ih]

/-- C3: single-flight loading.  From a state in which `name` is neither
loaded nor in flight, `n ≥ 1` concurrent `loadModule(name)` calls perform
exactly one underlying fetch: the first caller starts it and every other
caller receives the same pending promise.  A name already in `loadedModules`
resolves immediately without touching the state.  A failed load
(`completeFailure`) clears the in-flight marker without caching the failure,
so a later `loadModule(name)` starts a fresh fetch. -/
theorem single_flight_loading (s : LoaderState) (name : String)
    (fid n : Nat) (hnl : name ∉ s.loadedModules)
    (hnp : s.loadingPromises name = none) (hn : 1 ≤ n) :
    (runLoads s name fid n).2 =
      LoadResult.startedFetch fid ::
        List.replicate (n - 1) (LoadResult.joined fid) ∧
    fetchCount (runLoads s name fid n).2 = 1 ∧
    (∀ (s' : LoaderState) (fid' : Nat), name ∈ s'.loadedModules →
      loadModuleStep s' name fid' = (s', LoadResult.resolvedImmediate)) ∧
    ((completeFailure (runLoads s name fid n).1 name).loadedModules =
        s.loadedModules ∧
      (completeFailure (runLoads s name fid n).1 name).loadingPromises name =
        none ∧
      ∀ fid', (loadModuleStep
        (completeFailure (runLoads s name fid n).1 name) name fid').2 =
          LoadResult.startedFetch fid') := by
  obtain ⟨m, rfl⟩ : ∃ m, n = m + 1 := ⟨n - 1, by omega⟩
  set s1 : LoaderState :=
    { s with loadingPromises :=
        fun n' => if n' = name then some fid else s.loadingPromises n' } with hs1
  have hstep : loadModuleStep s name fid =
      (s1, LoadResult.startedFetch fid) := by
    unfold loadModuleStep
    rw [if_neg hnl, hnp]
  have hs1p : s1.loadingPromises name = some fid := by
    rw [hs1]
    simp
  have hs1l : name ∉ s1.loadedModules := hnl
  have hrun : runLoads s name fid (m + 1) =
      (s1, LoadResult.startedFetch fid ::
        List.replicate m (LoadResult.joined fid)) := by
    rw [runLoads, hstep, runLoads_joined name fid m (fid + 1) s1 hs1l hs1p]
  refine ⟨?_, ?_, ?_, ?_, ?_, ?_⟩
  · rw [hrun]
    simp
  · rw [hrun]
    unfold fetchCount
    rw [List.countP_cons]
    have := fetchCount_replicate_joined m fid
    unfold fetchCount at this
    simp [this]
  · intro s' fid' hmem
    unfold loadModuleStep
    rw [if_pos hmem]
  · rw [hrun, hs1]
    simp [completeFailure]
  · rw [hrun, hs1]
    simp [completeFailure]
  · intro fid'
    rw [hrun, hs1]
    simp [completeFailure, loadModuleStep, hnl]

/-- Witness for C3: ten concurrent loads of "x" from the empty loader state
perform exactly one fetch. -/
theorem single_flight_loading_witness :
    "x" ∉ (LoaderState.mk [] (fun _ => none)).loadedModules ∧
    (LoaderState.mk [] (fun _ => none)).loadingPromises "x" = none ∧
    (1 : Nat) ≤ 10 ∧
    fetchCount (runLoads (LoaderState.mk [] (fun _ => none)) "x" 0 10).2 = 1 :=
  ⟨by simp, rfl, by omega,
   (single_flight_loading (LoaderState.mk [] (fun _ => none)) "x" 0 10
     (by simp) rfl (by omega)).2.1⟩

/- ### C9: reference semantics of setData/getData -/

/-- A JS object held in the cache: the caller's data plus the `timestamp`
field that `setData` writes into it (absent until then). -/
structure HeapObj (V : Type) where
  value : V
  timestamp : Option Nat
deriving DecidableEq

/-- Reference-level view of the `dataCache`: the heap holds the objects and
the cache maps keys to references into the heap, exactly as a JS `Map` stores
object references rather than copies. -/
structure RefCache (V : Type) where
  heap : List (HeapObj V)
  dataCache : List (String × Nat)
deriving DecidableEq

/-- The in-place mutation `data.timestamp = Date.now()` on the object at
`ref`. -/
def updateTimestamp : List (HeapObj V) → Nat → Nat → List (HeapObj V)
  | [], _, _ => []
  | o :: t, 0, now => { o with timestamp := some now } :: t
  | o :: t, r + 1, now => o :: updateTimestamp t r now

/-- `cleanup()` restricted to the data cache, at the reference level: an
entry is deleted only if its object's `timestamp` is defined and below the
cutoff (in JS, `undefined < cutoff` is false, so an object without a
timestamp is kept).  A dangling reference cannot arise in the source (the
`Map` holds the object itself); such entries are kept. -/
def refCleanupData (st : RefCache V) (now : Nat) : RefCache V :=
  { st with dataCache := st.dataCache.filter (fun e =>
      match st.heap[e.2]? with
      | some o =>
          match o.timestamp with
          | some ts => ! decide (ts < cutoff now)
          | none => true
      | none => true) }

/-- `setData(key, data)` at the reference level: mutate the caller's object
in place (`data.timestamp = Date.now()`), store the same reference in the
cache, then run the cleanup pass. -/
def refSetData (st : RefCache V) (k : String) (ref now : Nat) : RefCache V :=
  refCleanupData
    { heap := updateTimestamp st.heap ref now
      dataCache := (k, ref) :: eraseKey st.dataCache k } now

/-- `getData(key)` at the reference level: returns the stored reference
itself (the very object the caller passed to `setData`), not a copy.  An
object whose `timestamp` is `undefined` fails the freshness test and is
deleted, as in the source. -/
def refGetData (st : RefCache V) (k : String) (now : Nat) :
    Option Nat × RefCache V :=
  match List.lookup k st.dataCache with
  | some ref =>
      match st.heap[ref]? with
      | some o =>
          match o.timestamp with
          | some ts =>
              if now - ts < CACHE_DURATION then (some ref, st)
              else (none, { st with dataCache := eraseKey st.dataCache k })
          | none => (none, { st with dataCache := eraseKey st.dataCache k })
      | none => (none, st)
  | none => (none, st)

theorem updateTimestamp_get (heap : List (HeapObj V)) (ref now : Nat)
    (o : HeapObj V) (h : heap[ref]? = some o) :
    (updateTimestamp heap ref now)[ref]? =
      some { value := o.value, timestamp := some now } := by
  induction heap generalizing ref with
  | nil => simp at h
  | cons x t ih =>
      cases ref with
      | zero =>
          have hx : x = o := by
            rw [List.getElem?_cons_zero] at h
            exact Option.some.inj h
          subst hx
          show ({ x with timestamp := some now } :: t)[0]? = _
          rw [List.getElem?_cons_zero]
      | succ r =>
          rw [List.getElem?_cons_succ] at h
          show (x :: updateTimestamp t r now)[r + 1]? = _
          rw [List.getElem?_cons_succ]
          exact ih r h

/-- C9: `setData(key, data)` writes the insertion timestamp into the
caller's own object — after the call the heap cell the caller references has
`timestamp = some now` — and the cache aliases that object rather than
copying it, so a later `getData(key)` within the TTL returns exactly the
caller's reference (mutations by any holder are visible to all holders). -/
theorem setData_aliases_caller_object (st : RefCache V) (k : String)
    (ref now tget : Nat) (o : HeapObj V) (href : st.heap[ref]? = some o)
    (hfresh : tget - now < CACHE_DURATION) :
    (refSetData st k ref now).heap[ref]? =
      some { value := o.value, timestamp := some now } ∧
    (refGetData (refSetData st k ref now) k tget).1 = some ref := by
  have hget := updateTimestamp_get st.heap ref now o href
  have hg2 : (refSetData st k ref now).heap[ref]? =
      some { value := o.value, timestamp := some now } := hget
  refine ⟨hg2, ?_⟩
  have hlt : ¬ (now < cutoff now) := Nat.not_lt.mpr (cutoff_le now)
  have hlook : List.lookup k (refSetData st k ref now).dataCache =
      some ref := by
    simp only [refSetData, refCleanupData]
    rw [List.filter_cons]
    simp only [hget]
    simp [hlt]
  unfold refGetData
  rw [hlook]
  simp only [hg2]
  rw [if_pos hfresh]

/-- Witness for C9 at a concrete heap, key and times. -/
theorem setData_aliases_caller_object_witness :
    (RefCache.mk [HeapObj.mk 5 none] [] : RefCache Nat).heap[0]? =
      some (HeapObj.mk 5 none) ∧
    150 - 100 < CACHE_DURATION ∧
    (refSetData (RefCache.mk [HeapObj.mk 5 none] [] : RefCache Nat)
      "a" 0 100).heap[0]? = some (HeapObj.mk 5 (some 100)) ∧
    (refGetData (refSetData (RefCache.mk [HeapObj.mk 5 none] [] :
      RefCache Nat) "a" 0 100) "a" 150).1 = some 0 :=
  ⟨rfl, by decide,
   (setData_aliases_caller_object (RefCache.mk [HeapObj.mk 5 none] [])
     "a" 0 100 150 (HeapObj.mk 5 none) rfl (by decide)).1,
   (setData_aliases_caller_object (RefCache.mk [HeapObj.mk 5 none] [])
     "a" 0 100 150 (HeapObj.mk 5 none) rfl (by decide)).2⟩

/- ### OptimizedMapRenderer (map-renderer.js) -/

/-- `OptimizedMapRenderer._samplePoints(points, maxPoints)`: the loop
`for (let i = 0; i < total && sampled.length < maxPoints; i++)`.
`rand i % (i + 1)` models `Math.floor(Math.random() * (i + 1))`, a value in
`[0, i]`. -/
def sampleAux [Inhabited α] (points : List α) (total maxPoints : Nat)
    (rand : Nat → Nat) (i : Nat) (sampled : List α) : List α :=
  if h : i < total ∧ sampled.length < maxPoints then
    if i < maxPoints then
      sampleAux points total maxPoints rand (i + 1)
        (sampled ++ [points.getD i default])
    else
      if rand i % (i + 1) < maxPoints then
        sampleAux points total maxPoints rand (i + 1)
          ((sampled.set (rand i % (i + 1)) (points.getD i default)))
      else
        sampleAux points total maxPoints rand (i + 1) sampled
  else
    sampled
termination_by total - i
decreasing_by
  all_goals omega

/-- `_samplePoints` entry: inputs not exceeding the cap are returned as is. -/
def samplePoints [Inhabited α] (points : List α) (maxPoints : Nat)
    (rand : Nat → Nat) : List α :=
  if points.length ≤ maxPoints then points
  else sampleAux points points.length maxPoints rand 0 []

theorem sampleAux_eq_take [Inhabited α] (points : List α) (maxPoints : Nat)
    (rand : Nat → Nat) (hmp : maxPoints < points.length) :
    ∀ (d i : Nat) (sampled : List α), maxPoints - i = d →
    sampled.length = i → i ≤ maxPoints →
    sampleAux points points.length maxPoints rand i sampled =
      sampled ++ (points.drop i).take (maxPoints - i) := by
  intro d
  induction d with
  | zero =>
      intro i sampled hd hlen hle
      have hi : i = maxPoints := by omega
      subst hi
      rw [sampleAux, dif_neg]
      · rw [Nat.sub_self]
        simp
      · omega
  | succ d ihd =>
      intro i sampled hd hlen hle
      have hi : i < maxPoints := by omega
      have hit : i < points.length := by omega
      rw [sampleAux, dif_pos ⟨hit, by omega⟩, if_pos hi]
      rw [ihd (i + 1) (sampled ++ [points.getD i default]) (by omega)
        (by simp [hlen]) (by omega)]
      rw [List.append_assoc]
      congr 1
      have hgd : points.getD i default = points[i] := by
        rw [List.getD_eq_getElem?_getD, List.getElem?_eq_getElem hit]
        rfl
      have hdrop := @List.drop_eq_getElem_cons _ i points hit
      rw [hgd, hdrop]
      have hsub : maxPoints - i = (maxPoints - (i + 1)) + 1 := by omega
      rw [hsub, List.take_succ_cons]
      rw [List.singleton_append]

theorem samplePoints_eq_take [Inhabited α] (points : List α)
    (maxPoints : Nat) (rand : Nat → Nat) :
    samplePoints points maxPoints rand = points.take maxPoints := by
  unfold samplePoints
  by_cases h : points.length ≤ maxPoints
  · rw [if_pos h, List.take_of_length_le h]
  · rw [if_neg h]
    have := sampleAux_eq_take points maxPoints rand (by omega) maxPoints 0 []
      (by omega) rfl (by omega)
    simpa using this

/-- C5 (code bug): `_samplePoints` never reaches its reservoir-replacement
branch — the loop guard `sampled.length < maxPoints` terminates the loop the
moment the reservoir is full, so for every random source the output is
exactly the first `maxPoints` input elements, and in particular the output is
identical for any two random sources (never a uniform sample containing
later input positions, contrary to the code's own
"Use reservoir sampling for better distribution" comment). -/
theorem samplePoints_always_input_start [Inhabited α] (points : List α)
    (maxPoints : Nat) (rand rand' : Nat → Nat) :
    samplePoints points maxPoints rand = points.take maxPoints ∧
    samplePoints points maxPoints rand =
      samplePoints points maxPoints rand' := by
  refine ⟨samplePoints_eq_take points maxPoints rand, ?_⟩
  rw [samplePoints_eq_take, samplePoints_eq_take]

/-- A CDR point as consumed by the renderer. -/
structure Point where
  lat : Rat
  lon : Rat
deriving DecidableEq

instance : Inhabited Point := ⟨⟨0, 0⟩⟩

/-- A GeoJSON point feature produced by `renderMarkers`:
`coordinates: [point.lon, point.lat]`, `properties: { id: index }` (the
random `activity` property does not affect geometry and is not modelled). -/
structure Feature where
  lon : Rat
  lat : Rat
  id : Nat
deriving DecidableEq

/-- `displayPoints.map((point, index) => feature)` of `renderMarkers`. -/
def toFeatures (displayPoints : List Point) : List Feature :=
  displayPoints.enum.map (fun e => Feature.mk e.2.lon e.2.lat e.1)

/-- `options.maxPoints || 5000` of `renderMarkers`. -/
def effectiveMaxPoints (maxPointsOpt : Option Nat) : Nat :=
  match maxPointsOpt with
  | some n => if n = 0 then 5000 else n
  | none => 5000

/-- The point-to-feature pipeline of `renderMarkers`: cap the display points
(`points.length > maxPoints ? _samplePoints(points, maxPoints) : points`) and
build one feature per display point.  There is no coordinate validation
anywhere on this path. -/
def renderMarkersFeatures (points : List Point) (maxPointsOpt : Option Nat)
    (rand : Nat → Nat) : List Feature :=
  toFeatures
    (if effectiveMaxPoints maxPointsOpt < points.length then
      samplePoints points (effectiveMaxPoints maxPointsOpt) rand
    else points)

theorem toFeatures_length (l : List Point) :
    (toFeatures l).length = l.length := by
  unfold toFeatures
  rw [List.length_map, List.enum_length]

/-- C6 counterexample: the spec's own example input
`[{lat:19.07,lon:72.87},{lat:95,lon:10}]` produces 2 features, not 1 — the
out-of-range point `lat = 95 > 90` reaches the feature-building step of
`renderMarkers` unhindered. -/
theorem invalid_point_reaches_features :
    (renderMarkersFeatures [Point.mk 19.07 72.87, Point.mk 95 10] none
      (fun n => n)).length = 2 ∧
    Feature.mk 10 95 1 ∈ renderMarkersFeatures
      [Point.mk 19.07 72.87, Point.mk 95 10] none (fun n => n) ∧
    ¬ ((95 : Rat) ≤ 90) := by
  have hfl : renderMarkersFeatures [Point.mk 19.07 72.87, Point.mk 95 10]
      none (fun n => n) =
      [Feature.mk 72.87 19.07 0, Feature.mk 10 95 1] := rfl
  refine ⟨by rw [hfl]; rfl, by rw [hfl]; simp, by decide⟩

/-- C6 amended: `renderMarkers` performs no coordinate validation at all:
every display point (the input truncated to the first `maxPoints = 5000`
positions by the capping step) is converted into a feature regardless of its
latitude/longitude range, so no point is ever rejected. -/
theorem renderMarkers_no_validation (points : List Point) (rand : Nat → Nat) :
    renderMarkersFeatures points none rand = toFeatures (points.take 5000) ∧
    (renderMarkersFeatures points none rand).length =
      min 5000 points.length := by
  have heq : renderMarkersFeatures points none rand =
      toFeatures (points.take 5000) := by
    unfold renderMarkersFeatures
    have h5 : effectiveMaxPoints none = 5000 := rfl
    rw [h5]
    by_cases h : 5000 < points.length
    · rw [if_pos h, samplePoints_eq_take]
    · rw [if_neg h, List.take_of_length_le (by omega)]
  refine ⟨heq, ?_⟩
  rw [heq, toFeatures_length, List.length_take]

/-- The error-handling shape of `renderMarkers` (lines 325-396; `renderHeatmap`
at 104-192 and `renderClusters` at 194-323 are identical): the whole body is
a `try` whose failure is caught, logged via `console.error` and
`performanceMonitor.logPerformanceIssue('Marker rendering failed', error)`,
after which the function returns normally.  The first component is the
exception propagated to the caller (always `none`); the second is the list of
logged performance issues. -/
def renderMarkersRun (points : List Point) (rand : Nat → Nat)
    (applyLayers : List Feature → Except String Unit) :
    Option String × List String :=
  match applyLayers (renderMarkersFeatures points none rand) with
  | Except.ok _ => (none, [])
  | Except.error e => (none, ["Marker rendering failed: " ++ e])

/-- C7 counterexample: a failing layer-application step inside
`renderMarkers` is logged through `logPerformanceIssue` and the render call
returns normally — no error reaches the caller. -/
theorem render_error_swallowed :
    renderMarkersRun [Point.mk 19.07 72.87] (fun n => n)
      (fun _ => Except.error "addLayer failed") =
    (none, ["Marker rendering failed: addLayer failed"]) := rfl

/-- C7 amended: the render path never propagates a failure to its caller —
for every input and every (possibly failing) layer-application step the call
returns normally with no exception, and a failure is reported only through
the `logPerformanceIssue` log. -/
theorem render_error_never_propagated (points : List Point)
    (rand : Nat → Nat) (applyLayers : List Feature → Except String Unit) :
    (renderMarkersRun points rand applyLayers).1 = none ∧
    (∀ e, applyLayers (renderMarkersFeatures points none rand) =
        Except.error e →
      (renderMarkersRun points rand applyLayers).2 =
        ["Marker rendering failed: " ++ e]) := by
  constructor
  · unfold renderMarkersRun
    cases applyLayers (renderMarkersFeatures points none rand) <;> rfl
  · intro e he
    unfold renderMarkersRun
    rw [he]

/-- Witness for C7's amended claim at a concrete failing backend. -/
theorem render_error_never_propagated_witness :
    (renderMarkersRun [] (fun n => n) (fun _ => Except.error "boom")).1 =
      none ∧
    (renderMarkersRun [] (fun n => n) (fun _ => Except.error "boom")).2 =
      ["Marker rendering failed: boom"] :=
  ⟨(render_error_never_propagated [] (fun n => n)
      (fun _ => Except.error "boom")).1,
   (render_error_never_propagated [] (fun n => n)
      (fun _ => Except.error "boom")).2 "boom" rfl⟩

end MapPerf
